import Mathlib

/-!
Verification of the orchestration flow of `src/barcode_decoder.py`.

The script delegates image reading (cv2, PIL) and symbol recognition
(pyzbar) to external libraries; those collaborators are modelled as an
explicit environment of functions (`Env`).  The script's own logic —
the fallback decode chain, the batch enumeration filter, the annotated
output-name derivation via `rsplit(".", 1)`, the summary counting and
the CLI dispatch — is embedded faithfully below.  Python string
operations (`str.lower`, `str.endswith`, `str.rsplit(".", 1)`,
`os.path.join`) are embedded as executable functions on `List Char`
with the same semantics on the ASCII file names in play.
-/

namespace BarcodeDecoder

/-- An opaque handle standing for an in-memory decoded bitmap
(a cv2/numpy array or a PIL image).  Its identity only matters to the
extent that the environment functions distinguish handles. -/
abbrev Image := Nat

/-- One decoded symbol, as the script collects it into its `results`
list: a dict with keys `type`, `data` and `location` (the pyzbar
rect `(x, y, w, h)`). -/
structure Symbol where
  type : String
  data : String
  location : Int × Int × Int × Int
deriving Repr, DecidableEq

/-- The external collaborators of the script, as black-box functions:
`os.listdir`, `os.path.exists`, `cv2.imread` (`none` on an unreadable
path), `cv2.cvtColor(..., COLOR_BGR2GRAY)`, `PIL.Image.open`, and
`pyzbar.decode` applied to a representation. -/
structure Env where
  listdir : String → List String
  pathExists : String → Bool
  imread : String → Option Image
  cvtGray : Image → Image
  pilOpen : String → Image
  decode : Image → List Symbol

/-! ## Python string primitives -/

/-- Splits a list at the LAST occurrence of `c`: returns
`some (before, after)` with `l = before ++ c :: after` and `c ∉ after`,
or `none` when `c` does not occur. -/
def breakLast (c : Char) : List Char → Option (List Char × List Char)
  | [] => none
  | x :: rest =>
    match breakLast c rest with
    | some (pre, post) => some (x :: pre, post)
    | none => if x = c then some ([], rest) else none

/-- Python `s.rsplit(".", 1)`: a one- or two-element list of parts,
split at the last dot. -/
def pyRsplitDot1 (p : List Char) : List (List Char) :=
  match breakLast '.' p with
  | some (stem, ext) => [stem, ext]
  | none => [p]

/-- ASCII model of Python `str.lower` on one character. -/
def pyLowerChar (c : Char) : Char :=
  if 'A' ≤ c ∧ c ≤ 'Z' then Char.ofNat (c.toNat + 32) else c

/-- ASCII model of Python `str.lower`. -/
def pyLower (s : String) : String := String.mk (s.data.map pyLowerChar)

/-- Python `s.endswith(t)` on character lists. -/
def listEndsWith (s t : List Char) : Bool :=
  s.drop (s.length - t.length) == t

/-- Python `s.endswith(t)`. -/
def pyEndsWith (s t : String) : Bool := listEndsWith s.data t.data

/-- Model of `os.path.join` for the relative names the script joins
(a directory plus a bare file name from `os.listdir`). -/
def pathJoin (d f : String) : String :=
  if d = "" then f
  else if pyEndsWith d "/" then d ++ f
  else d ++ "/" ++ f

/-! ## The annotated output name (line 79) -/

/-- The characters `"_decoded."` inserted by line 79 between the stem
and the extension of the input path. -/
def sfxL : List Char := "_decoded.".data

/-- Line 79: `image_path.rsplit(".", 1)[0] + "_decoded." +
image_path.rsplit(".", 1)[1]`.  When the path has no dot the rsplit
yields a single part and the `[1]` raises `IndexError`, modelled as
`none`. -/
def outputPathL (p : List Char) : Option (List Char) :=
  match pyRsplitDot1 p with
  | [stem, ext] => some (stem ++ sfxL ++ ext)
  | _ => none

/-- `outputPathL` on `String`. -/
def outputPath (p : String) : Option String :=
  (outputPathL p.data).map String.mk

/-- The final path component: everything after the last `/`
(or the whole path when it has no `/`). -/
def basenameL (p : List Char) : List Char :=
  match breakLast '/' p with
  | some pr => pr.2
  | none => p

/-- The directory part: everything before the last `/`, or `none`
when the path has no `/`. -/
def dirPartL (p : List Char) : Option (List Char) :=
  (breakLast '/' p).map Prod.fst

/-! ## decode_barcode_pyzbar (lines 14-86) -/

/-- Lines 31-43: the fallback chain.  `b1` is pyzbar on the cv2 image,
`b2` retries on the grayscale conversion only when `b1` is empty, and
the result retries on the PIL re-read of the path only when `b2` is
still empty. -/
def chainBarcodes (env : Env) (image_path : String) (image : Image) : List Symbol :=
  let gray := env.cvtGray image
  let b1 := env.decode image
  let b2 := if b1.isEmpty then env.decode gray else b1
  if b2.isEmpty then env.decode (env.pilOpen image_path) else b2

/-- The observable outcome of one `decode_barcode_pyzbar` call:
whether the "Could not read image" error was printed (line 27),
which symbols were printed and drawn in the per-symbol loop
(lines 50-76), the value the call returns (`none` when the
`IndexError` of line 79 propagates instead of a return), and the
path written by `cv2.imwrite` (line 80), if any. -/
structure Outcome where
  loadErrorReported : Bool
  reported : List Symbol
  retVal : Option (List Symbol)
  written : Option String
deriving Repr, DecidableEq

/-- Lines 14-86.  `cv2.imread` failure returns `[]` after printing an
error; otherwise the fallback chain runs, an empty chain returns `[]`
with no write, and a non-empty chain prints/draws every symbol, then
derives the output name (line 79, which raises on a dotless path) and
writes the annotated image. -/
def decode_barcode_pyzbar (env : Env) (image_path : String) : Outcome :=
  match env.imread image_path with
  | none =>
    { loadErrorReported := true, reported := [], retVal := some [], written := none }
  | some image =>
    let barcodes := chainBarcodes env image_path image
    if barcodes.isEmpty then
      { loadErrorReported := false, reported := [], retVal := some [], written := none }
    else
      match outputPath image_path with
      | some out =>
        { loadErrorReported := false, reported := barcodes,
          retVal := some barcodes, written := some out }
      | none =>
        { loadErrorReported := false, reported := barcodes,
          retVal := none, written := none }

/-! ## decode_all_images_in_directory (lines 89-132) -/

/-- Line 94: the supported image extensions. -/
def image_extensions : List String :=
  [".png", ".jpg", ".jpeg", ".bmp", ".tiff", ".gif"]

/-- Lines 101-104: a directory entry qualifies when its lowercased name
ends with a supported extension and the name does not end with
`_decoded.png` or `_decoded.jpg`. -/
def qualifies (f : String) : Bool :=
  image_extensions.any (fun e => pyEndsWith (pyLower f) e)
    && !(pyEndsWith f "_decoded.png")
    && !(pyEndsWith f "_decoded.jpg")

/-- The `image_files` list comprehension over a directory listing. -/
def listImageFiles (listing : List String) : List String :=
  listing.filter qualifies

/-- Lines 114-117: the per-file loop.  Each file is joined to the
directory and run through the pipeline; an uncaught exception in the
pipeline (`retVal = none`) aborts the whole batch (`none`), otherwise
the results are collected per file name. -/
def runBatchLoop (env : Env) (dir : String) :
    List String → Option (List (String × List Symbol))
  | [] => some []
  | f :: fs =>
    match (decode_barcode_pyzbar env (pathJoin dir f)).retVal with
    | none => none
    | some res => (runBatchLoop env dir fs).map (fun rest => (f, res) :: rest)

/-- The three counts printed by the summary block (lines 124-129). -/
structure Summary where
  totalProcessed : Nat
  successfulImages : Nat
  totalBarcodes : Nat
deriving Repr, DecidableEq

/-- The observable outcome of a batch run: the early return with
"No image files found" (line 106-108), an abort by an uncaught
exception, or completion with the collected results and the printed
summary. -/
inductive BatchResult where
  | noImages
  | crashed
  | done (allResults : List (String × List Symbol)) (summary : Summary)
deriving Repr, DecidableEq

/-- Lines 89-132: enumerate qualifying files from `os.listdir`, return
early when there are none, run the loop, and print the summary counts:
`len(image_files)` processed, the number of files with a non-empty
result list, and the sum of the result-list lengths. -/
def decode_all_images_in_directory (env : Env) (directory : String) : BatchResult :=
  let image_files := listImageFiles (env.listdir directory)
  if image_files.isEmpty then .noImages
  else
    match runBatchLoop env directory image_files with
    | none => .crashed
    | some all_results =>
      .done all_results
        { totalProcessed := image_files.length,
          successfulImages := (all_results.filter (fun pr => !pr.2.isEmpty)).length,
          totalBarcodes := (all_results.map (fun pr => pr.2.length)).sum }

/-! ## decode_single_image (lines 135-143) and main (lines 146-162) -/

/-- What a `decode_single_image` call comes to: the `None` return for
a missing path (line 141), an uncaught exception from the pipeline, or
the returned result list. -/
inductive SingleResult where
  | notFound
  | crashed
  | ok (results : List Symbol)
deriving Repr, DecidableEq

/-- Lines 135-143, paired with the annotated path the call wrote, if
any: a missing path returns `None` without any read being attempted;
otherwise the call defers to `decode_barcode_pyzbar`. -/
def decode_single_image (env : Env) (image_path : String) :
    SingleResult × Option String :=
  if env.pathExists image_path then
    let o := decode_barcode_pyzbar env image_path
    match o.retVal with
    | some res => (.ok res, o.written)
    | none => (.crashed, o.written)
  else (.notFound, none)

/-- Which mode `main` ran and its outcome. -/
inductive MainRun where
  | single (path : String) (result : SingleResult × Option String)
  | batch (directory : String) (result : BatchResult)
deriving Repr, DecidableEq

/-- Lines 156-162: with at least one command-line argument
(`len(sys.argv) > 1`) run single-file mode on `sys.argv[1]`, else run
batch mode with the default directory `"."`.  `argv_rest` is
`sys.argv[1:]`. -/
def main (env : Env) (argv_rest : List String) : MainRun :=
  match argv_rest with
  | image_path :: _ => .single image_path (decode_single_image env image_path)
  | [] => .batch "." (decode_all_images_in_directory env ".")

/-! ## Helper lemmas on the string primitives -/

theorem data_append (a b : String) : (a ++ b).data = a.data ++ b.data := rfl

theorem breakLast_eq_none (c : Char) (l : List Char) (h : c ∉ l) :
    breakLast c l = none := by
  induction l with
  | nil => rfl
  | cons x rest ih =>
    simp only [List.mem_cons, not_or] at h
    simp [breakLast, ih h.2, if_neg (Ne.symm h.1)]

theorem breakLast_isSome_of_mem (c : Char) (l : List Char) (h : c ∈ l) :
    (breakLast c l).isSome = true := by
  induction l with
  | nil => cases h
  | cons x rest ih =>
    by_cases hm : c ∈ rest
    · have := ih hm
      cases hb : breakLast c rest with
      | none => rw [hb] at this; cases this
      | some pr => simp [breakLast, hb]
    · have hx : x = c := by
        rcases List.mem_cons.mp h with h1 | h1
        · exact h1.symm
        · exact absurd h1 hm
      simp [breakLast, breakLast_eq_none c rest hm, hx]

theorem breakLast_spec (c : Char) (l pre post : List Char)
    (h : breakLast c l = some (pre, post)) :
    l = pre ++ c :: post ∧ c ∉ post := by
  induction l generalizing pre post with
  | nil => cases h
  | cons x rest ih =>
    simp only [breakLast] at h
    cases hb : breakLast c rest with
    | some pr =>
      rw [hb] at h
      obtain ⟨pre0, post0⟩ := pr
      simp only [Option.some.injEq, Prod.mk.injEq] at h
      obtain ⟨h1, h2⟩ := h
      obtain ⟨ih1, ih2⟩ := ih pre0 post0 hb
      subst h2
      constructor
      · rw [← h1, ih1]; rfl
      · exact ih2
    | none =>
      rw [hb] at h
      by_cases hx : x = c
      · rw [if_pos hx] at h
        simp only [Option.some.injEq, Prod.mk.injEq] at h
        obtain ⟨h1, h2⟩ := h
        subst h2
        have hnm : c ∉ rest := by
          intro hm
          have := breakLast_isSome_of_mem c rest hm
          rw [hb] at this; cases this
        constructor
        · rw [← h1, hx]; rfl
        · exact hnm
      · rw [if_neg hx] at h; cases h

theorem breakLast_append_some (c : Char) (a b pre post : List Char)
    (h : breakLast c b = some (pre, post)) :
    breakLast c (a ++ b) = some (a ++ pre, post) := by
  induction a with
  | nil => simpa using h
  | cons x rest ih => simp [breakLast, ih]

theorem breakLast_last (c : Char) (a post : List Char) (h : c ∉ post) :
    breakLast c (a ++ c :: post) = some (a, post) := by
  induction a with
  | nil => simp [breakLast, breakLast_eq_none c post h]
  | cons x rest ih => simp [breakLast, ih]

theorem listEndsWith_append (a b : List Char) : listEndsWith (a ++ b) b = true := by
  simp only [listEndsWith, List.length_append, Nat.add_sub_cancel]
  rw [List.drop_left]
  exact beq_self_eq_true b

theorem mem_of_listEndsWith (s t : List Char) (x : Char)
    (h : listEndsWith s t = true) (hx : x ∈ t) : x ∈ s := by
  simp only [listEndsWith, beq_iff_eq] at h
  rw [← h] at hx
  exact List.mem_of_mem_drop hx

theorem char_ofNat_toNat (n : Nat) (h1 : 97 ≤ n) (h2 : n ≤ 122) :
    (Char.ofNat n).toNat = n := by
  unfold Char.ofNat
  rw [dif_pos (Or.inl (by omega) : Nat.isValidChar n)]
  simp [Char.ofNatAux, Char.toNat, UInt32.toNat, BitVec.toNat_ofNatLt]

theorem char_upper_toNat (c : Char) (h : 'A' ≤ c ∧ c ≤ 'Z') :
    65 ≤ c.toNat ∧ c.toNat ≤ 90 := by
  obtain ⟨h1, h2⟩ := h
  simp only [Char.le_def, UInt32.le_def] at h1 h2
  exact ⟨h1, h2⟩

theorem pyLowerChar_eq_dot (c : Char) (h : pyLowerChar c = '.') : c = '.' := by
  unfold pyLowerChar at h
  by_cases hc : 'A' ≤ c ∧ c ≤ 'Z'
  · rw [if_pos hc] at h
    exfalso
    obtain ⟨h1, h2⟩ := char_upper_toNat c hc
    have hv : (Char.ofNat (c.toNat + 32)).toNat = c.toNat + 32 :=
      char_ofNat_toNat _ (by omega) (by omega)
    rw [h] at hv
    have hd : ('.' : Char).toNat = 46 := by decide
    omega
  · rw [if_neg hc] at h
    exact h

theorem mem_dot_of_map_lower (l : List Char) (h : '.' ∈ l.map pyLowerChar) :
    '.' ∈ l := by
  obtain ⟨c, hc, he⟩ := List.mem_map.mp h
  rw [← pyLowerChar_eq_dot c he]
  exact hc

theorem qualifies_has_dot (f : String) (h : qualifies f = true) : '.' ∈ f.data := by
  have h1 : image_extensions.any (fun e => pyEndsWith (pyLower f) e) = true := by
    simp only [qualifies, Bool.and_eq_true] at h
    exact h.1.1
  obtain ⟨e, he, hend⟩ := List.any_eq_true.mp h1
  have hde : '.' ∈ e.data := by
    simp only [image_extensions, List.mem_cons, List.not_mem_nil, or_false] at he
    rcases he with h | h | h | h | h | h <;> (subst h; decide)
  have hd : '.' ∈ (pyLower f).data :=
    mem_of_listEndsWith _ _ _ hend hde
  exact mem_dot_of_map_lower f.data hd

theorem outputPathL_isSome_of_dot (p : List Char) (h : '.' ∈ p) :
    (outputPathL p).isSome = true := by
  have := breakLast_isSome_of_mem '.' p h
  cases hb : breakLast '.' p with
  | none => rw [hb] at this; cases this
  | some pr =>
    obtain ⟨stem, ext⟩ := pr
    simp [outputPathL, pyRsplitDot1, hb]

theorem pathJoin_dot (d f : String) (h : '.' ∈ f.data) :
    '.' ∈ (pathJoin d f).data := by
  unfold pathJoin
  by_cases h1 : d = ""
  · rw [if_pos h1]; exact h
  · rw [if_neg h1]
    by_cases h2 : pyEndsWith d "/" = true
    · rw [if_pos h2, data_append]
      exact List.mem_append_right _ h
    · rw [if_neg h2, data_append]
      exact List.mem_append_right _ h

/-! ## Pipeline-level lemmas -/

/-- The result list one pipeline run returns when it returns at all:
empty on a load failure, else the fallback-chain outcome. -/
def fileResults (env : Env) (p : String) : List Symbol :=
  match env.imread p with
  | none => []
  | some img => chainBarcodes env p img

theorem chainBarcodes_eq_if (env : Env) (p : String) (img : Image) :
    chainBarcodes env p img =
      (if env.decode img ≠ [] then env.decode img
       else if env.decode (env.cvtGray img) ≠ [] then env.decode (env.cvtGray img)
       else env.decode (env.pilOpen p)) := by
  unfold chainBarcodes
  cases h1 : env.decode img with
  | nil =>
    cases h2 : env.decode (env.cvtGray img) with
    | nil => simp [h1, h2]
    | cons y ys => simp [h1, h2]
  | cons x xs => simp [h1]

theorem retVal_eq_of_dot (env : Env) (p : String) (h : '.' ∈ p.data) :
    (decode_barcode_pyzbar env p).retVal = some (fileResults env p) := by
  unfold decode_barcode_pyzbar fileResults
  cases hi : env.imread p with
  | none => rfl
  | some img =>
    simp only
    by_cases hb : (chainBarcodes env p img).isEmpty = true
    · rw [if_pos hb]
      rw [List.isEmpty_iff] at hb
      simp [hb]
    · rw [if_neg hb]
      have hs := outputPathL_isSome_of_dot p.data h
      cases ho : outputPath p with
      | none =>
        exfalso
        unfold outputPath at ho
        cases hl : outputPathL p.data with
        | none => rw [hl] at hs; cases hs
        | some q => rw [hl] at ho; cases ho
      | some q => simp [ho]

theorem qualifies_retVal (env : Env) (dir f : String) (hq : qualifies f = true) :
    (decode_barcode_pyzbar env (pathJoin dir f)).retVal =
      some (fileResults env (pathJoin dir f)) :=
  retVal_eq_of_dot env (pathJoin dir f) (pathJoin_dot dir f (qualifies_has_dot f hq))

theorem runBatchLoop_eq (env : Env) (dir : String) (fs : List String)
    (h : ∀ f ∈ fs, qualifies f = true) :
    runBatchLoop env dir fs =
      some (fs.map (fun f => (f, fileResults env (pathJoin dir f)))) := by
  induction fs with
  | nil => rfl
  | cons f fs ih =>
    have hq : qualifies f = true := h f (List.mem_cons_self f fs)
    have hrest : ∀ g ∈ fs, qualifies g = true :=
      fun g hg => h g (List.mem_cons_of_mem f hg)
    simp [runBatchLoop, qualifies_retVal env dir f hq, ih hrest]

/-! ## Concrete environments used as witnesses and counterexamples -/

/-- A concrete decoded symbol. -/
def sym0 : Symbol :=
  { type := "QRCODE", data := "HELLO", location := (1, 2, 3, 4) }

/-- An environment in which every path exists, reads as image handle
`0`, and decodes to the single symbol `sym0`. -/
def env0 : Env :=
  { listdir := fun _ => ["a.png", "b.txt"],
    pathExists := fun _ => true,
    imread := fun _ => some 0,
    cvtGray := fun i => i,
    pilOpen := fun _ => 0,
    decode := fun _ => [sym0] }

/-- An environment in which every path exists but no path is readable
as an image. -/
def envLoadFail : Env :=
  { listdir := fun _ => [],
    pathExists := fun _ => true,
    imread := fun _ => none,
    cvtGray := fun i => i,
    pilOpen := fun _ => 0,
    decode := fun _ => [] }

/-- An environment in which no path exists. -/
def envNoFile : Env :=
  { listdir := fun _ => [],
    pathExists := fun _ => false,
    imread := fun _ => none,
    cvtGray := fun i => i,
    pilOpen := fun _ => 0,
    decode := fun _ => [] }

/-- An environment in which every path reads fine but no symbols are
ever found. -/
def envNoSymbols : Env :=
  { listdir := fun _ => ["a.png"],
    pathExists := fun _ => true,
    imread := fun _ => some 0,
    cvtGray := fun i => i,
    pilOpen := fun _ => 0,
    decode := fun _ => [] }

/-- An environment whose current directory holds one non-image file
only. -/
def envNoImages : Env :=
  { listdir := fun _ => ["readme.txt"],
    pathExists := fun _ => true,
    imread := fun _ => some 0,
    cvtGray := fun i => i,
    pilOpen := fun _ => 0,
    decode := fun _ => [sym0] }

theorem decode_found_write (env : Env) (p : String) (img : Image) (out : String)
    (h1 : env.imread p = some img) (h2 : chainBarcodes env p img ≠ [])
    (ho : outputPath p = some out) :
    decode_barcode_pyzbar env p =
      { loadErrorReported := false, reported := chainBarcodes env p img,
        retVal := some (chainBarcodes env p img), written := some out } := by
  have hne : (chainBarcodes env p img).isEmpty = false := by
    rw [List.isEmpty_eq_false]; exact h2
  simp [decode_barcode_pyzbar, h1, hne, ho]

theorem decode_found_crash (env : Env) (p : String) (img : Image)
    (h1 : env.imread p = some img) (h2 : chainBarcodes env p img ≠ [])
    (ho : outputPath p = none) :
    decode_barcode_pyzbar env p =
      { loadErrorReported := false, reported := chainBarcodes env p img,
        retVal := none, written := none } := by
  have hne : (chainBarcodes env p img).isEmpty = false := by
    rw [List.isEmpty_eq_false]; exact h2
  simp [decode_barcode_pyzbar, h1, hne, ho]

/-! ## The claims -/

/-- Claim C1, counterexample.  The claim says every file name the
pipeline can produce (line 79) is excluded by the batch enumeration
(lines 101-104).  But the exclusion only tests the exact suffixes
`_decoded.png` and `_decoded.jpg`: the producible name `a_decoded.bmp`
(output of line 79 on the qualifying input `a.bmp`) still qualifies,
so a re-run would re-process it. -/
theorem C1_counterexample :
    outputPath "a.bmp" = some "a_decoded.bmp" ∧
    qualifies "a.bmp" = true ∧
    qualifies "a_decoded.bmp" = true := by
  refine ⟨by decide, by decide, by decide⟩

/-- Claim C1, amended: only produced names whose final extension is
`.png` or `.jpg` (as produced from a lowercase `.png`/`.jpg` input)
are excluded by the batch enumeration; produced names bearing the
other supported extensions are enumerated again. -/
theorem C1_amended (stem ext : String) (h : ext = "png" ∨ ext = "jpg") :
    qualifies (stem ++ "_decoded." ++ ext) = false := by
  rcases h with h | h <;> subst h
  · have he : pyEndsWith (stem ++ "_decoded." ++ "png") "_decoded.png" = true := by
      show listEndsWith ((stem.data ++ "_decoded.".data) ++ "png".data)
        "_decoded.png".data = true
      rw [List.append_assoc]
      exact listEndsWith_append stem.data "_decoded.png".data
    simp [qualifies, he]
  · have he : pyEndsWith (stem ++ "_decoded." ++ "jpg") "_decoded.jpg" = true := by
      show listEndsWith ((stem.data ++ "_decoded.".data) ++ "jpg".data)
        "_decoded.jpg".data = true
      rw [List.append_assoc]
      exact listEndsWith_append stem.data "_decoded.jpg".data
    simp [qualifies, he]

/-- Witness for the amended claim C1 at a concrete stem and
extension. -/
theorem C1_amended_witness : qualifies ("a" ++ "_decoded." ++ "png") = false :=
  C1_amended "a" "png" (Or.inl rfl)

/-- Claim C2, counterexample.  The claim says the symbols returned are
exactly those of the first representation yielding at least one
symbol.  On the dotless path `"img"`, readable and decoding to
`[sym0]` from the first representation, line 79 raises `IndexError`
before the `return`, so nothing is returned at all (`retVal = none`
rather than `some [sym0]`). -/
theorem C2_counterexample :
    env0.imread "img" = some 0 ∧
    env0.decode 0 = [sym0] ∧
    (decode_barcode_pyzbar env0 "img").retVal = none :=
  ⟨rfl, rfl, rfl⟩

/-- Claim C2, amended: for every image path CONTAINING A DOT, the
decoder tries the direct read, then grayscale, then the PIL re-read,
each later representation only when every earlier one yielded zero
symbols, and returns exactly the symbols of the first representation
that yielded any (or the empty sequence if none did). -/
theorem C2_amended (env : Env) (p : String) (img : Image)
    (h1 : env.imread p = some img) (h2 : '.' ∈ p.data) :
    (decode_barcode_pyzbar env p).retVal =
      some (if env.decode img ≠ [] then env.decode img
            else if env.decode (env.cvtGray img) ≠ [] then env.decode (env.cvtGray img)
            else env.decode (env.pilOpen p)) := by
  rw [retVal_eq_of_dot env p h2]
  unfold fileResults
  rw [h1]
  exact congrArg some (chainBarcodes_eq_if env p img)

/-- Witness for the amended claim C2 at a concrete environment and
path. -/
theorem C2_amended_witness :
    (decode_barcode_pyzbar env0 "a.png").retVal = some [sym0] :=
  C2_amended env0 "a.png" 0 rfl (by decide)

/-- Claim C3: an unreadable path makes the loader report the load
error and return an empty result without writing anything (the
script's printed error report standing for the spec's `LoadError`),
and the batch loop handles such a file by recording `[]` for it and
continuing with the remaining files exactly as it otherwise would. -/
theorem C3 (env : Env) (dir f : String) (fs : List String)
    (h : env.imread (pathJoin dir f) = none) :
    decode_barcode_pyzbar env (pathJoin dir f) =
      { loadErrorReported := true, reported := [], retVal := some [], written := none } ∧
    runBatchLoop env dir (f :: fs) =
      (runBatchLoop env dir fs).map (fun rest => (f, []) :: rest) := by
  have h1 : decode_barcode_pyzbar env (pathJoin dir f) =
      { loadErrorReported := true, reported := [], retVal := some [],
        written := none } := by
    unfold decode_barcode_pyzbar
    rw [h]
  exact ⟨h1, by simp [runBatchLoop, h1]⟩

/-- Witness for claim C3 at a concrete environment, directory and
file list. -/
theorem C3_witness :
    decode_barcode_pyzbar envLoadFail (pathJoin "." "a.png") =
      { loadErrorReported := true, reported := [], retVal := some [], written := none } ∧
    runBatchLoop envLoadFail "." ["a.png", "b.png"] =
      (runBatchLoop envLoadFail "." ["b.png"]).map (fun rest => ("a.png", []) :: rest) :=
  C3 envLoadFail "." "a.png" ["b.png"] rfl

/-- Claim C4: when the whole fallback chain finds no symbols, the call
returns the empty list (not an error: no load error is reported), no
symbol is printed or drawn, and no annotated file is written. -/
theorem C4 (env : Env) (p : String) (img : Image)
    (h1 : env.imread p = some img) (h2 : chainBarcodes env p img = []) :
    decode_barcode_pyzbar env p =
      { loadErrorReported := false, reported := [], retVal := some [], written := none } := by
  unfold decode_barcode_pyzbar
  rw [h1]
  simp [h2]

/-- Witness for claim C4 at a concrete environment and path. -/
theorem C4_witness :
    decode_barcode_pyzbar envNoSymbols "a.png" =
      { loadErrorReported := false, reported := [], retVal := some [], written := none } :=
  C4 envNoSymbols "a.png" 0 rfl rfl

/-- Claim C5, counterexample.  The claim covers every directory with N
qualifying files and M others, including N = 0: there the code takes
the early "No image files found" return (lines 106-108) and no summary
is printed at all, while the claim asserts a summary with 0 files
processed. -/
theorem C5_counterexample :
    envNoImages.listdir "." = ["readme.txt"] ∧
    qualifies "readme.txt" = false ∧
    decode_all_images_in_directory envNoImages "." = BatchResult.noImages :=
  ⟨rfl, by decide, by decide⟩

/-- Claim C5, amended: for every directory with N ≥ 1 qualifying
files, batch mode runs the single-image pipeline exactly once per
qualifying file (in listing order) and prints the summary counts
files processed = N, images with barcodes = the number of files with
a non-empty result sequence, total barcodes = the sum of the
result-sequence lengths. -/
theorem C5_amended (env : Env) (dir : String)
    (hN : listImageFiles (env.listdir dir) ≠ []) :
    decode_all_images_in_directory env dir =
      BatchResult.done
        ((listImageFiles (env.listdir dir)).map
          (fun f => (f, fileResults env (pathJoin dir f))))
        { totalProcessed := (listImageFiles (env.listdir dir)).length,
          successfulImages :=
            ((listImageFiles (env.listdir dir)).filter
              (fun f => !(fileResults env (pathJoin dir f)).isEmpty)).length,
          totalBarcodes :=
            ((listImageFiles (env.listdir dir)).map
              (fun f => (fileResults env (pathJoin dir f)).length)).sum } := by
  have hq : ∀ f ∈ listImageFiles (env.listdir dir), qualifies f = true :=
    fun f hf => List.of_mem_filter hf
  have hloop := runBatchLoop_eq env dir (listImageFiles (env.listdir dir)) hq
  have hE : (listImageFiles (env.listdir dir)).isEmpty = false :=
    List.isEmpty_eq_false.mpr hN
  simp only [decode_all_images_in_directory, hE, Bool.false_eq_true, if_false, hloop]
  simp [List.filter_map, List.map_map, Function.comp]
  exact ⟨rfl, rfl⟩

/-- Witness for the amended claim C5: one qualifying image among two
listed files, decoding to one symbol. -/
theorem C5_amended_witness :
    decode_all_images_in_directory env0 "." =
      BatchResult.done [("a.png", [sym0])]
        { totalProcessed := 1, successfulImages := 1, totalBarcodes := 1 } :=
  C5_amended env0 "." (by decide)

/-- Claim C6, counterexample.  The claim says every input with a
decoded symbol gets an annotated file beside it, named by inserting
the suffix before the final extension.  On the dotless path `"photo"`
nothing is written at all (the name derivation raises), and on
`"dir.v2/file"` — whose only dot sits in the directory part — the
derived path `"dir_decoded.v2/file"` lies in a DIFFERENT directory,
not beside the input. -/
theorem C6_counterexample :
    env0.decode 0 = [sym0] ∧
    env0.imread "photo" = some 0 ∧
    (decode_barcode_pyzbar env0 "photo").written = none ∧
    (decode_barcode_pyzbar env0 "dir.v2/file").written = some "dir_decoded.v2/file" ∧
    dirPartL "dir_decoded.v2/file".data ≠ dirPartL "dir.v2/file".data :=
  ⟨rfl, rfl, rfl, by decide, by decide⟩

/-- Claim C6, amended: for every input path whose FINAL COMPONENT
contains a dot, when at least one symbol is decoded the annotated
image is written to a path with the same directory part, whose base
name is the input base name with `_decoded` inserted immediately
before the final extension (the extension itself unchanged). -/
theorem C6_amended (env : Env) (p : String) (img : Image) (bs be : List Char)
    (h1 : env.imread p = some img)
    (h2 : chainBarcodes env p img ≠ [])
    (hb : breakLast '.' (basenameL p.data) = some (bs, be)) :
    ∃ q : List Char,
      (decode_barcode_pyzbar env p).written = some (String.mk q) ∧
      dirPartL q = dirPartL p.data ∧
      basenameL q = bs ++ sfxL ++ be ∧
      basenameL p.data = bs ++ '.' :: be := by
  cases hs : breakLast '/' p.data with
  | none =>
    have hbase : basenameL p.data = p.data := by simp [basenameL, hs]
    rw [hbase] at hb
    obtain ⟨hspec, hdot⟩ := breakLast_spec '.' p.data bs be hb
    have hout : outputPath p = some (String.mk (bs ++ sfxL ++ be)) := by
      simp [outputPath, outputPathL, pyRsplitDot1, hb]
    have hslash : '/' ∉ p.data := by
      intro hm
      have hsome := breakLast_isSome_of_mem '/' p.data hm
      rw [hs] at hsome; cases hsome
    have hq : '/' ∉ bs ++ sfxL ++ be := by
      intro hm
      rcases List.mem_append.mp hm with hm1 | hm2
      · rcases List.mem_append.mp hm1 with hm1a | hm1b
        · exact hslash (by rw [hspec]; exact List.mem_append_left _ hm1a)
        · revert hm1b; decide
      · exact hslash
          (by rw [hspec]; exact List.mem_append_right _ (List.mem_cons_of_mem _ hm2))
    have hnone : breakLast '/' (bs ++ sfxL ++ be) = none :=
      breakLast_eq_none '/' _ hq
    refine ⟨bs ++ sfxL ++ be, ?_, ?_, ?_, ?_⟩
    · rw [decode_found_write env p img _ h1 h2 hout]
    · unfold dirPartL
      rw [hnone, hs]
    · unfold basenameL
      rw [hnone]
    · rw [hbase]; exact hspec
  | some pr =>
    obtain ⟨d, b⟩ := pr
    obtain ⟨hps, hsl⟩ := breakLast_spec '/' p.data d b hs
    have hbase : basenameL p.data = b := by simp [basenameL, hs]
    rw [hbase] at hb
    obtain ⟨hbs, hdot⟩ := breakLast_spec '.' b bs be hb
    have hstep : breakLast '.' ('/' :: b) = some ('/' :: bs, be) := by
      simp [breakLast, hb]
    have hfull : breakLast '.' p.data = some (d ++ '/' :: bs, be) := by
      rw [hps]
      exact breakLast_append_some '.' d ('/' :: b) ('/' :: bs) be hstep
    have hout : outputPath p =
        some (String.mk ((d ++ '/' :: bs) ++ sfxL ++ be)) := by
      simp [outputPath, outputPathL, pyRsplitDot1, hfull]
    have hassoc : (d ++ '/' :: bs) ++ sfxL ++ be = d ++ '/' :: (bs ++ sfxL ++ be) := by
      simp [List.append_assoc]
    have htail : '/' ∉ bs ++ sfxL ++ be := by
      intro hm
      rcases List.mem_append.mp hm with hm1 | hm2
      · rcases List.mem_append.mp hm1 with hm1a | hm1b
        · exact hsl (by rw [hbs]; exact List.mem_append_left _ hm1a)
        · revert hm1b; decide
      · exact hsl
          (by rw [hbs]; exact List.mem_append_right _ (List.mem_cons_of_mem _ hm2))
    have hqsplit : breakLast '/' ((d ++ '/' :: bs) ++ sfxL ++ be) =
        some (d, bs ++ sfxL ++ be) := by
      rw [hassoc]
      exact breakLast_last '/' d _ htail
    refine ⟨(d ++ '/' :: bs) ++ sfxL ++ be, ?_, ?_, ?_, ?_⟩
    · rw [decode_found_write env p img _ h1 h2 hout]
    · unfold dirPartL
      rw [hqsplit, hs]
      rfl
    · unfold basenameL
      rw [hqsplit]
    · rw [hbase]; exact hbs

/-- Witness for the amended claim C6 at a concrete environment and
the path `"dir/a.png"`. -/
theorem C6_amended_witness :
    ∃ q : List Char,
      (decode_barcode_pyzbar env0 "dir/a.png").written = some (String.mk q) ∧
      dirPartL q = dirPartL "dir/a.png".data ∧
      basenameL q = "a".data ++ sfxL ++ "png".data ∧
      basenameL "dir/a.png".data = "a".data ++ '.' :: "png".data :=
  C6_amended env0 "dir/a.png" 0 "a".data "png".data rfl (by decide) (by decide)

/-- Claim C8: with an empty argument list `main` runs batch mode over
the current directory `"."`, and with one or more arguments it runs
single-file mode on the first argument, ignoring the rest. -/
theorem C8 (env : Env) :
    main env [] = MainRun.batch "." (decode_all_images_in_directory env ".") ∧
    ∀ (a : String) (rest : List String),
      main env (a :: rest) = MainRun.single a (decode_single_image env a) :=
  ⟨rfl, fun _ _ => rfl⟩

/-- Witness for claim C8 at a concrete environment and argument
lists. -/
theorem C8_witness :
    main env0 [] = MainRun.batch "." (decode_all_images_in_directory env0 ".") ∧
    main env0 ["a.png", "b.png"] =
      MainRun.single "a.png" (decode_single_image env0 "a.png") :=
  ⟨(C8 env0).1, (C8 env0).2 "a.png" ["b.png"]⟩

/-- Claim C9: on a readable path containing no dot, once the fallback
chain finds at least one symbol, the name derivation of line 79
raises `IndexError`: the symbols were already printed and drawn
(`reported`), but nothing is returned (`retVal = none`), no file is
written, and single-file mode ends in the uncaught exception. -/
theorem C9 (env : Env) (p : String) (img : Image)
    (hdot : '.' ∉ p.data)
    (hex : env.pathExists p = true)
    (h1 : env.imread p = some img)
    (h2 : chainBarcodes env p img ≠ []) :
    decode_barcode_pyzbar env p =
      { loadErrorReported := false, reported := chainBarcodes env p img,
        retVal := none, written := none } ∧
    decode_single_image env p = (SingleResult.crashed, none) := by
  have ho : outputPath p = none := by
    simp [outputPath, outputPathL, pyRsplitDot1, breakLast_eq_none '.' p.data hdot]
  have hd := decode_found_crash env p img h1 h2 ho
  refine ⟨hd, ?_⟩
  simp [decode_single_image, hex, hd]

/-- Witness for claim C9 on the dotless readable path `"img"`. -/
theorem C9_witness :
    decode_barcode_pyzbar env0 "img" =
      { loadErrorReported := false, reported := chainBarcodes env0 "img" 0,
        retVal := none, written := none } ∧
    decode_single_image env0 "img" = (SingleResult.crashed, none) :=
  C9 env0 "img" 0 (by decide) rfl rfl (by decide)

/-- Claim C10: a nonexistent path makes `decode_single_image` return
`None` (no read attempted — the conclusion holds whatever `imread`
does); a path that exists but is unreadable as an image yields the
empty list; in both cases nothing is written. -/
theorem C10 (env : Env) (p : String) :
    (env.pathExists p = false →
      decode_single_image env p = (SingleResult.notFound, none)) ∧
    (env.pathExists p = true → env.imread p = none →
      decode_single_image env p = (SingleResult.ok [], none)) := by
  constructor
  · intro h
    simp [decode_single_image, h]
  · intro h1 h2
    simp [decode_single_image, h1, decode_barcode_pyzbar, h2]

/-- Witness for claim C10: a missing path and an existing but
unreadable path. -/
theorem C10_witness :
    decode_single_image envNoFile "a.png" = (SingleResult.notFound, none) ∧
    decode_single_image envLoadFail "a.png" = (SingleResult.ok [], none) :=
  ⟨(C10 envNoFile "a.png").1 rfl, (C10 envLoadFail "a.png").2 rfl rfl⟩

end BarcodeDecoder
